import Mathlib

/-
Verification of the `code-commentor` HTTP gateway: the per-client rate
limiter, the request validation in the `POST /api/comment` handler, the
multi-strategy recovery of a JSON object from the upstream model's raw
text output, and the client-side 60-second abort.

The repository ships two revisions of `src/app/api/comment/route.ts` in
one file: an earlier revision (no rate limiter, fallback parse runs the
`sanitizeJsonString` repair on the brace-delimited substring) and a later
revision (rate limiter present, fallback parse uses the raw substring with
no repair).  Both parse pipelines are embedded below; the request handler
`POST` embeds the later revision, which is the one containing the rate
limiter.  JavaScript strings are modelled as Lean `String`/`List Char`
(code points; identical to UTF-16 units on the basic plane, which covers
every string handled here), JavaScript numbers as `Nat`/`Int` (all values
involved are small integers), and `JSON.parse` as an RFC 8259 parser.
-/

/- ------------------------------------------------------------------
   Rate limiter (route.ts, later revision, lines with
   `const rateLimiter = new Map ...`, `getRealIP`, `checkRateLimit`)
   ------------------------------------------------------------------ -/

/-- `const RATE_LIMIT = 10`. -/
def RATE_LIMIT : Nat := 10

/-- `const WINDOW_MS = 15 * 60 * 1000`. -/
def WINDOW_MS : Nat := 15 * 60 * 1000

/-- One entry of the `rateLimiter` map: `{ count, resetTime }`. -/
structure RateWindow where
  count : Nat
  resetTime : Nat
deriving DecidableEq, Repr

/-- Return value of `checkRateLimit`: `{ allowed, remaining, resetTime }`.
`remaining` is an `Int` because JavaScript would produce a negative number
if the stored count ever exceeded the limit. -/
structure RateCheckResult where
  allowed : Bool
  remaining : Int
  resetTime : Nat
deriving DecidableEq, Repr

/-- The in-memory `rateLimiter : Map<string, {count, resetTime}>`,
as an association list (the map is never iterated, so only per-key
get/set behaviour matters). -/
abbrev RateLimiterState := List (String × RateWindow)

/-- `rateLimiter.get(ip)`. -/
def mapGet (st : RateLimiterState) (k : String) : Option RateWindow :=
  match st with
  | [] => none
  | (k2, w) :: rest => if k2 = k then some w else mapGet rest k

/-- `rateLimiter.set(ip, w)` (also models the in-place `userLimit.count++`,
which is equivalent to storing the incremented window under the same key). -/
def mapSet (st : RateLimiterState) (k : String) (w : RateWindow) : RateLimiterState :=
  (k, w) :: st.filter (fun p => decide (p.1 ≠ k))

/-- Whitespace for the JavaScript `String.prototype.trim` (the common
WhiteSpace/LineTerminator characters; exotic Unicode spaces do not occur
in the strings handled here). -/
def jsTrimWs (c : Char) : Bool :=
  c = ' ' || c = Char.ofNat 9 || c = Char.ofNat 10 || c = Char.ofNat 13 ||
  c = Char.ofNat 11 || c = Char.ofNat 12 || c = Char.ofNat 0xa0 || c = Char.ofNat 0xfeff

/-- `s.trim()`. -/
def jsTrim (cs : List Char) : List Char :=
  ((cs.dropWhile jsTrimWs).reverse.dropWhile jsTrimWs).reverse

/-- Truthiness of a nullable header value (`headers.get` returns `null`
for a missing header; an empty string is also falsy). -/
def jsTruthyStrOpt : Option String → Bool
  | none => false
  | some s => s ≠ ""

/-- `getRealIP(request)`: first entry of `x-forwarded-for` (split at the
first comma, trimmed), else `x-real-ip`, else the literal `"unknown"`. -/
def getRealIP (forwarded realIP : Option String) : String :=
  if jsTruthyStrOpt forwarded then
    String.mk (jsTrim ((forwarded.getD "").data.takeWhile (fun c => c ≠ ',')))
  else if jsTruthyStrOpt realIP then
    realIP.getD ""
  else "unknown"

/-- `checkRateLimit(ip)`, with the current time and the map passed
explicitly; returns the result together with the updated map.
Transcribed from:
`if (!userLimit || now > userLimit.resetTime) { set count 1; return allowed }`
`if (userLimit.count >= RATE_LIMIT) { return blocked }`
`userLimit.count++; return allowed`. -/
def checkRateLimit (now : Nat) (ip : String) (st : RateLimiterState) :
    RateCheckResult × RateLimiterState :=
  match mapGet st ip with
  | none =>
    (⟨true, (RATE_LIMIT : Int) - 1, now + WINDOW_MS⟩,
      mapSet st ip ⟨1, now + WINDOW_MS⟩)
  | some userLimit =>
    if now > userLimit.resetTime then
      (⟨true, (RATE_LIMIT : Int) - 1, now + WINDOW_MS⟩,
        mapSet st ip ⟨1, now + WINDOW_MS⟩)
    else if userLimit.count ≥ RATE_LIMIT then
      (⟨false, 0, userLimit.resetTime⟩, st)
    else
      (⟨true, (RATE_LIMIT : Int) - ((userLimit.count : Int) + 1), userLimit.resetTime⟩,
        mapSet st ip ⟨userLimit.count + 1, userLimit.resetTime⟩)

/-- Run `checkRateLimit` once per listed time for a fixed client,
collecting the results. -/
def checkSeq : List Nat → String → RateLimiterState →
    List RateCheckResult × RateLimiterState
  | [], _, st => ([], st)
  | t :: ts, ip, st =>
    let r := checkRateLimit t ip st
    let rest := checkSeq ts ip r.2
    (r.1 :: rest.1, rest.2)

/-- Run a sequence of `checkRateLimit` calls (time, client) and return the
final map. -/
def runChecks : List (Nat × String) → RateLimiterState → RateLimiterState
  | [], st => st
  | (now, ip) :: rest, st => runChecks rest (checkRateLimit now ip st).2

/-- The count a live (non-expired) window holds for `ip` at time `now`;
`0` when no window exists or the window has expired. -/
def liveCount (st : RateLimiterState) (ip : String) (now : Nat) : Nat :=
  match mapGet st ip with
  | none => 0
  | some w => if now > w.resetTime then 0 else w.count

/- ------------------------------------------------------------------
   JSON.parse, embedded as an RFC 8259 parser over `List Char`.
   (`JSON.parse` is the platform builtin the route calls; numbers are
   kept as their lexemes, since no code path inspects a numeric value
   other than for truthiness.)
   ------------------------------------------------------------------ -/

/-- Parsed JSON values.  Objects keep their members in order (duplicate
keys allowed; property access takes the last occurrence, as in
JavaScript). -/
inductive JVal where
  | jnull
  | jbool (b : Bool)
  | jnum (lex : String)
  | jstr (s : String)
  | jarr (elems : List JVal)
  | jobj (members : List (String × JVal))

/-- The four JSON whitespace characters (space, tab, LF, CR). -/
def isJsonWs (c : Char) : Bool :=
  c = ' ' || c = Char.ofNat 9 || c = Char.ofNat 10 || c = Char.ofNat 13

/-- Skip JSON whitespace. -/
def skipWs (cs : List Char) : List Char := cs.dropWhile isJsonWs

/-- Value of a hex digit. -/
def hexVal (c : Char) : Option Nat :=
  if '0' ≤ c ∧ c ≤ '9' then some (c.toNat - '0'.toNat)
  else if 'a' ≤ c ∧ c ≤ 'f' then some (c.toNat - 'a'.toNat + 10)
  else if 'A' ≤ c ∧ c ≤ 'F' then some (c.toNat - 'A'.toNat + 10)
  else none

/-- Parse the body of a JSON string literal (the opening quote already
consumed), returning the decoded string and the remainder.  Raw control
characters (below U+0020) are rejected, as `JSON.parse` rejects them.
`\uXXXX` escapes are decoded, combining surrogate pairs; a lone
surrogate (which JavaScript, unlike Lean `Char`, can represent) is
rejected — no string handled in this development contains one. -/
def parseJStringAux : List Char → List Char → Option (String × List Char)
  | _, [] => none
  | acc, c :: rest =>
    if c = '"' then some (String.mk acc.reverse, rest)
    else if c = '\\' then
      match rest with
      | [] => none
      | e :: rest2 =>
        if e = '"' then parseJStringAux ('"' :: acc) rest2
        else if e = '\\' then parseJStringAux ('\\' :: acc) rest2
        else if e = '/' then parseJStringAux ('/' :: acc) rest2
        else if e = 'b' then parseJStringAux (Char.ofNat 8 :: acc) rest2
        else if e = 'f' then parseJStringAux (Char.ofNat 12 :: acc) rest2
        else if e = 'n' then parseJStringAux (Char.ofNat 10 :: acc) rest2
        else if e = 'r' then parseJStringAux (Char.ofNat 13 :: acc) rest2
        else if e = 't' then parseJStringAux (Char.ofNat 9 :: acc) rest2
        else if e = 'u' then
          match rest2 with
          | h1 :: h2 :: h3 :: h4 :: rest3 =>
            match hexVal h1, hexVal h2, hexVal h3, hexVal h4 with
            | some a, some b, some c2, some d =>
              let n := ((a * 16 + b) * 16 + c2) * 16 + d
              if 0xd800 ≤ n ∧ n ≤ 0xdbff then
                match rest3 with
                | b1 :: u1 :: g1 :: g2 :: g3 :: g4 :: rest4 =>
                  if b1 = '\\' ∧ u1 = 'u' then
                    match hexVal g1, hexVal g2, hexVal g3, hexVal g4 with
                    | some a2, some b2, some c3, some d2 =>
                      let m := ((a2 * 16 + b2) * 16 + c3) * 16 + d2
                      if 0xdc00 ≤ m ∧ m ≤ 0xdfff then
                        parseJStringAux
                          (Char.ofNat (0x10000 + (n - 0xd800) * 0x400 + (m - 0xdc00)) :: acc)
                          rest4
                      else none
                    | _, _, _, _ => none
                  else none
                | _ => none
              else if 0xdc00 ≤ n ∧ n ≤ 0xdfff then none
              else parseJStringAux (Char.ofNat n :: acc) rest3
            | _, _, _, _ => none
          | _ => none
        else none
    else if c.toNat < 32 then none
    else parseJStringAux (c :: acc) rest

/-- Parse a JSON number lexeme `-? (0 | [1-9][0-9]*) (\.[0-9]+)? ([eE][+-]?[0-9]+)?`,
returning the lexeme and the remainder. -/
def parseJNumber (cs : List Char) : Option (String × List Char) :=
  let (sign, cs1) :=
    match cs with
    | '-' :: rest => (['-'], rest)
    | _ => ([], cs)
  match cs1 with
  | [] => none
  | d :: rest1 =>
    if ¬ d.isDigit then none
    else
      let (intDigits, cs2) :=
        if d = '0' then ([d], rest1)
        else (d :: rest1.takeWhile Char.isDigit, rest1.dropWhile Char.isDigit)
      let (fracPart, cs3) :=
        match cs2 with
        | '.' :: f :: rest2 =>
          if f.isDigit then
            ('.' :: f :: rest2.takeWhile Char.isDigit, some (rest2.dropWhile Char.isDigit))
          else ([], none)
        | _ => ([], some cs2)
      match cs3 with
      | none => none
      | some cs4 =>
        let (expPart, cs5) :=
          match cs4 with
          | e :: rest3 =>
            if e = 'e' ∨ e = 'E' then
              let (expSign, rest4) :=
                match rest3 with
                | '+' :: r => (['+'], r)
                | '-' :: r => (['-'], r)
                | _ => ([], rest3)
              match rest4 with
              | g :: rest5 =>
                if g.isDigit then
                  (e :: expSign ++ g :: rest5.takeWhile Char.isDigit,
                    some (rest5.dropWhile Char.isDigit))
                else ([], none)
              | [] => ([], none)
            else ([], some cs4)
          | [] => ([], some cs4)
        match cs5 with
        | none => none
        | some cs6 => some (String.mk (sign ++ intDigits ++ fracPart ++ expPart), cs6)

/-- Does `cs` start with the given literal?  Returns the remainder. -/
def dropLiteral : List Char → List Char → Option (List Char)
  | [], cs => some cs
  | p :: ps, c :: cs => if c = p then dropLiteral ps cs else none
  | _ :: _, [] => none

mutual

/-- Parse one JSON value (leading whitespace skipped), returning it and the
remainder.  The fuel argument bounds recursion depth; the top-level entry
point supplies more fuel than any input can consume. -/
def parseJValue : Nat → List Char → Option (JVal × List Char)
  | 0, _ => none
  | fuel + 1, cs =>
    match skipWs cs with
    | [] => none
    | c :: rest =>
      if c = '"' then
        match parseJStringAux [] rest with
        | some (s, rest2) => some (JVal.jstr s, rest2)
        | none => none
      else if c = '{' then
        match skipWs rest with
        | '}' :: rest2 => some (JVal.jobj [], rest2)
        | rest2 => match parseJMembers fuel rest2 with
          | some (ms, rest3) => some (JVal.jobj ms, rest3)
          | none => none
      else if c = '[' then
        match skipWs rest with
        | ']' :: rest2 => some (JVal.jarr [], rest2)
        | rest2 => match parseJElems fuel rest2 with
          | some (vs, rest3) => some (JVal.jarr vs, rest3)
          | none => none
      else if c = 't' then
        match dropLiteral ['r', 'u', 'e'] rest with
        | some rest2 => some (JVal.jbool true, rest2)
        | none => none
      else if c = 'f' then
        match dropLiteral ['a', 'l', 's', 'e'] rest with
        | some rest2 => some (JVal.jbool false, rest2)
        | none => none
      else if c = 'n' then
        match dropLiteral ['u', 'l', 'l'] rest with
        | some rest2 => some (JVal.jnull, rest2)
        | none => none
      else if c = '-' ∨ c.isDigit then
        match parseJNumber (c :: rest) with
        | some (lex, rest2) => some (JVal.jnum lex, rest2)
        | none => none
      else none

/-- Parse the members of a JSON object after its `{` (at least one member;
the empty object is handled by `parseJValue`). -/
def parseJMembers : Nat → List Char → Option (List (String × JVal) × List Char)
  | 0, _ => none
  | fuel + 1, cs =>
    match skipWs cs with
    | '"' :: rest =>
      match parseJStringAux [] rest with
      | none => none
      | some (key, rest2) =>
        match skipWs rest2 with
        | ':' :: rest3 =>
          match parseJValue fuel rest3 with
          | none => none
          | some (v, rest4) =>
            match skipWs rest4 with
            | ',' :: rest5 =>
              match parseJMembers fuel rest5 with
              | some (ms, rest6) => some ((key, v) :: ms, rest6)
              | none => none
            | '}' :: rest5 => some ([(key, v)], rest5)
            | _ => none
        | _ => none
    | _ => none

/-- Parse the elements of a JSON array after its `[` (at least one element;
the empty array is handled by `parseJValue`). -/
def parseJElems : Nat → List Char → Option (List JVal × List Char)
  | 0, _ => none
  | fuel + 1, cs =>
    match parseJValue fuel cs with
    | none => none
    | some (v, rest) =>
      match skipWs rest with
      | ',' :: rest2 =>
        match parseJElems fuel rest2 with
        | some (vs, rest3) => some (v :: vs, rest3)
        | none => none
      | ']' :: rest2 => some ([v], rest2)
      | _ => none

end

/-- `JSON.parse(s)`: parse one value with only whitespace around it;
`none` models the `SyntaxError` throw. -/
def jparse (s : String) : Option JVal :=
  match parseJValue (s.data.length + 1) s.data with
  | some (v, rest) => if (skipWs rest).isEmpty then some v else none
  | none => none

/- ------------------------------------------------------------------
   JavaScript object semantics needed by the handler
   ------------------------------------------------------------------ -/

/-- Property access on an object member list: the last occurrence of a
duplicated key wins, as in a JavaScript object literal. -/
def objGet (ms : List (String × JVal)) (k : String) : Option JVal :=
  match ms with
  | [] => none
  | (k2, v) :: rest =>
    match objGet rest k with
    | some v2 => some v2
    | none => if k2 = k then some v else none

/-- `v[k]` for a parsed JSON value: named properties exist only on
objects (array named properties and primitive boxing never yield a
value for the keys used here). -/
def jsPropOf : JVal → String → Option JVal
  | JVal.jobj ms, k => objGet ms k
  | _, _ => none

/-- Is the mantissa of a JSON number lexeme zero (`0`, `-0`, `0.00`,
`0e5`, ... are the falsy numbers)? -/
def jnumIsZero (lex : String) : Bool :=
  (lex.data.takeWhile (fun c => c ≠ 'e' ∧ c ≠ 'E')).all
    (fun c => c = '0' ∨ c = '-' ∨ c = '.')

/-- JavaScript truthiness of a parsed JSON value. -/
def jsTruthyV : JVal → Bool
  | JVal.jnull => false
  | JVal.jbool b => b
  | JVal.jnum lex => ¬ jnumIsZero lex
  | JVal.jstr s => s ≠ ""
  | JVal.jarr _ => true
  | JVal.jobj _ => true

/-- Truthiness of a possibly-missing property (`undefined` is falsy). -/
def jsTruthyOpt : Option JVal → Bool
  | none => false
  | some v => jsTruthyV v

/-- `typeof v === 'object'` for a parsed JSON value (`null`, arrays and
objects; strings, numbers and booleans have other typeof results). -/
def jsTypeofIsObject : JVal → Bool
  | JVal.jnull => true
  | JVal.jarr _ => true
  | JVal.jobj _ => true
  | _ => false

/-- The response-structure validation both revisions run on the parsed
value: `!(!parsedJson || typeof parsedJson !== 'object' || !parsedJson.commentedCode)`. -/
def validateParsed (v : JVal) : Bool :=
  jsTruthyV v && jsTypeofIsObject v && jsTruthyOpt (jsPropOf v "commentedCode")

/-- Does the payload (the parsed value echoed in a 200 response) carry a
`language` property whose value is a string? -/
def payloadHasStringLanguage : Option JVal → Bool
  | some v =>
    match jsPropOf v "language" with
    | some (JVal.jstr _) => true
    | _ => false
  | none => false

/- ------------------------------------------------------------------
   sanitizeJsonString (route.ts, earlier revision, lines 163-192)
   ------------------------------------------------------------------ -/

/-- `sanitized.split('\n')` on the character list. -/
def splitOnNl : List Char → List (List Char)
  | [] => [[]]
  | c :: rest =>
    if c = Char.ofNat 10 then [] :: splitOnNl rest
    else
      match splitOnNl rest with
      | l :: ls => (c :: l) :: ls
      | [] => [[c]]

/-- `lines.join('\n')`. -/
def joinNl : List (List Char) → List Char
  | [] => []
  | [l] => l
  | l :: ls => l ++ Char.ofNat 10 :: joinNl ls

/-- The character class `\s` of the JavaScript regexps in
`sanitizeJsonString` (the common whitespace characters; only a plain
space occurs in the strings this development evaluates). -/
def jsRegexWs (c : Char) : Bool :=
  c = ' ' || c = Char.ofNat 9 || c = Char.ofNat 10 || c = Char.ofNat 13 ||
  c = Char.ofNat 11 || c = Char.ofNat 12 || c = Char.ofNat 0xa0 || c = Char.ofNat 0xfeff

/-- The literal `"commentedCode":` both regexps start with. -/
def ccLiteral : List Char := '"' :: "commentedCode".data ++ ['"', ':']

/-- Try to match the regexp `/"commentedCode":\s*"([^"]*(?:\\.[^"]*)*)"/`
at the head of `cs`; on success return (matched text, capture, remainder
after the match).

The class `[^"]` also matches a backslash, so the greedy `[^"]*` always
stops exactly at the first quote after the opening quote, where the
continuation `"` immediately succeeds; the alternative `(?:\\.[^"]*)*`
can therefore never consume anything (its leading `\\` always faces that
quote).  The regexp is thus equivalent to `/"commentedCode":\s*"([^"]*)"/`,
which is what this function implements. -/
def matchCCAt (cs : List Char) : Option (List Char × List Char × List Char) :=
  match dropLiteral ccLiteral cs with
  | none => none
  | some afterLit =>
    let ws := afterLit.takeWhile jsRegexWs
    match afterLit.dropWhile jsRegexWs with
    | '"' :: afterQ =>
      let cap := afterQ.takeWhile (fun c => c ≠ '"')
      match afterQ.dropWhile (fun c => c ≠ '"') with
      | '"' :: rest =>
        some (ccLiteral ++ ws ++ '"' :: cap ++ ['"'], cap, rest)
      | _ => none
    | _ => none

/-- `commentedCodeRegex.exec(rejoinedString)`: the capture group of the
first (leftmost) match, if any. -/
def execFirstCC : List Char → Option (List Char)
  | [] => none
  | c :: rest =>
    match matchCCAt (c :: rest) with
    | some (_, cap, _) => some cap
    | none => execFirstCC rest

/-- ECMAScript GetSubstitution for a string replacement: expand `$$`,
`$&`, `` $` `` and `$'` in the template (`m` the matched text, `before`
and `after` the parts of the subject around the match).  The replace
pattern has no capture groups, so `$1`-style references stay literal,
as do other `$` sequences. -/
def substDollar (m before after : List Char) : List Char → List Char
  | [] => []
  | '$' :: d :: rest =>
    if d = '$' then '$' :: substDollar m before after rest
    else if d = '&' then m ++ substDollar m before after rest
    else if d = Char.ofNat 96 then before ++ substDollar m before after rest
    else if d = Char.ofNat 39 then after ++ substDollar m before after rest
    else '$' :: d :: substDollar m before after rest
  | c :: rest => c :: substDollar m before after rest

/-- `sanitized.replace(/"commentedCode":\s*"[^"]*(?:\\.[^"]*)*"/g, template)`:
replace every match, left to right, expanding `$` sequences in the
template per match.  `whole` is the full subject (for `` $` ``/`$'`),
`pos` the index of the current scan position, `rem` the remaining text.
The fuel only serves termination; every step consumes at least one
character, so fuel `whole.length + 1` can never run out. -/
def replaceAllCC (template whole : List Char) : Nat → Nat → List Char → List Char
  | 0, _, rem => rem
  | _ + 1, _, [] => []
  | fuel + 1, pos, c :: rest =>
    match matchCCAt (c :: rest) with
    | some (m, _, after) =>
      substDollar m (whole.take pos) (whole.drop (pos + m.length)) template
        ++ replaceAllCC template whole fuel (pos + m.length) after
    | none => c :: replaceAllCC template whole fuel (pos + 1) rest

/-- The escape-fixing chain applied to the captured `commentedCode` value:
`.replace(/\\/g,'\\\\').replace(/"/g,'\\"').replace(/\n/g,'\\n').replace(/\t/g,'\\t').replace(/\r/g,'\\r')`
(in exactly that order). -/
def fixEscapes (s : List Char) : List Char :=
  let r1 := s.flatMap (fun c => if c = '\\' then ['\\', '\\'] else [c])
  let r2 := r1.flatMap (fun c => if c = '"' then ['\\', '"'] else [c])
  let r3 := r2.flatMap (fun c => if c = Char.ofNat 10 then ['\\', 'n'] else [c])
  let r4 := r3.flatMap (fun c => if c = Char.ofNat 9 then ['\\', 't'] else [c])
  r4.flatMap (fun c => if c = Char.ofNat 13 then ['\\', 'r'] else [c])

/-- `sanitizeJsonString(jsonString)` from the earlier revision: split/join
(an identity), locate the `commentedCode` value with the exec regexp,
re-escape it, and substitute it back with the global replace (template
`"commentedCode": "${fixedValue}"`, note the space after the colon). -/
def sanitizeJsonString (jsonString : String) : String :=
  let sanitized := jsonString.data
  let lines := splitOnNl sanitized
  let rejoinedString := joinNl lines
  match execFirstCC rejoinedString with
  | none => String.mk sanitized
  | some originalValue =>
    let fixedValue := fixEscapes originalValue
    let template := '"' :: "commentedCode".data ++ ['"', ':', ' ', '"'] ++ fixedValue ++ ['"']
    String.mk (replaceAllCC template sanitized (sanitized.length + 1) 0 sanitized)

/- ------------------------------------------------------------------
   The fallback extraction and the two parse pipelines
   ------------------------------------------------------------------ -/

/-- `responseText.indexOf('{')` as an option (`none` for `-1`). -/
def firstIdxOf (c : Char) (cs : List Char) : Option Nat := cs.findIdx? (· = c)

/-- `responseText.lastIndexOf('}')` as an option. -/
def lastIdxOf (c : Char) (cs : List Char) : Option Nat :=
  (cs.reverse.findIdx? (· = c)).map (fun k => cs.length - 1 - k)

/-- `String.prototype.substring(a, b)`: clamps both indices to the length
and swaps them when `a > b`. -/
def jsSubstring (cs : List Char) (a b : Nat) : List Char :=
  let la := min a cs.length
  let lb := min b cs.length
  (cs.take (max la lb)).drop (min la lb)

/-- The fallback extraction both revisions share: the substring from the
first `{` to the last `}` (inclusive); `none` models the throw when
either index is `-1`. -/
def extractBraces (cs : List Char) : Option (List Char) :=
  match firstIdxOf '{' cs, lastIdxOf '}' cs with
  | some i, some j => some (jsSubstring cs i (j + 1))
  | _, _ => none

/-- The earlier revision's response parsing (route.ts lines 100-124):
try `JSON.parse` on the whole text; on failure extract the brace
substring, run `sanitizeJsonString` on it, and `JSON.parse` the result.
`none` models the rethrown "AI returned malformed JSON response". -/
def parseUpstreamSanitizing (responseText : String) : Option JVal :=
  match jparse responseText with
  | some v => some v
  | none =>
    match extractBraces responseText.data with
    | none => none
    | some sub => jparse (sanitizeJsonString (String.mk sub))

/-- The later revision's response parsing (route.ts lines 340-359):
try `JSON.parse` on the whole text; on failure `JSON.parse` the raw
brace substring.  No repair pass exists in this revision. -/
def parseUpstreamPlain (responseText : String) : Option JVal :=
  match jparse responseText with
  | some v => some v
  | none =>
    match extractBraces responseText.data with
    | none => none
    | some sub => jparse (String.mk sub)

/-- Modelled from the spec's wording for comparison (not from the code):
parsing in three ordered attempts — (1) parse the whole text, (2) parse
the raw substring from the first `{` to the last `}`, (3) apply the
targeted repair to that substring and re-parse — using the first
success. -/
def specThreeAttempt (responseText : String) : Option JVal :=
  match jparse responseText with
  | some v => some v
  | none =>
    match extractBraces responseText.data with
    | none => none
    | some sub =>
      match jparse (String.mk sub) with
      | some v => some v
      | none => jparse (sanitizeJsonString (String.mk sub))

/- ------------------------------------------------------------------
   POST handler (route.ts, later revision, lines 266-404)
   ------------------------------------------------------------------ -/

/-- A JavaScript value destructured from the request body: either a
string, or any other value abstracted by its truthiness and its
`.length` property (absent/`undefined` is `vOther false none`; only
truthiness, `.length > 3000` and `typeof === 'string'` are observed). -/
inductive JSField where
  | vStr (s : String)
  | vOther (truthy : Bool) (length : Option Nat)
deriving DecidableEq, Repr

/-- Truthiness of a body field. -/
def JSField.truthy : JSField → Bool
  | .vStr s => s ≠ ""
  | .vOther t _ => t

/-- `field.length > 3000` (for a non-string without a `length` property
the comparison is `undefined > 3000`, which is false). -/
def JSField.lengthGT3000 : JSField → Bool
  | .vStr s => s.length > 3000
  | .vOther _ (some n) => n > 3000
  | .vOther _ none => false

/-- `typeof field === 'string'`. -/
def JSField.isStringTy : JSField → Bool
  | .vStr _ => true
  | .vOther _ _ => false

/-- Which of the substrings tested by the catch block an error's
`message` contains (`'429'`, `'quota'`, `'503'`, `'overloaded'`,
`'JSON'`, `'malformed'`). -/
structure ErrFlags where
  has429 : Bool
  hasQuota : Bool
  has503 : Bool
  hasOverloaded : Bool
  hasJSON : Bool
  hasMalformed : Bool
deriving DecidableEq, Repr

/-- The catch block's status mapping (later revision, lines 380-402):
429/quota → 429, 503/overloaded → 503, JSON/malformed → 502, else 500. -/
def catchStatus (e : ErrFlags) : Nat :=
  if e.has429 || e.hasQuota then 429
  else if e.has503 || e.hasOverloaded then 503
  else if e.hasJSON || e.hasMalformed then 502
  else 500

/-- Flags of `"AI returned malformed JSON response"` (thrown when both
parse attempts fail): contains `JSON` and `malformed` only. -/
def malformedResponseFlags : ErrFlags := ⟨false, false, false, false, true, true⟩

/-- Flags of `"Invalid response structure from AI service"`: contains
none of the tested substrings. -/
def invalidStructureFlags : ErrFlags := ⟨false, false, false, false, false, false⟩

/-- Flags of the `TypeError` thrown when destructuring a `null` or
`undefined` body (`"Cannot destructure property 'code' of ..."`):
contains none of the tested substrings. -/
def destructureErrFlags : ErrFlags := ⟨false, false, false, false, false, false⟩

/-- Outcome of `await request.json()` followed by the destructuring
`const { code, personality } = ...`. -/
inductive BodyOutcome where
  | parseError (e : ErrFlags)
  | destructureError
  | fields (code : JSField) (personality : JSField)
deriving Repr

/-- Outcome of the awaited upstream call
`model.generateContent(...)` / `result.response.text()`: either the raw
response text, or a rejection whose message carries the given flags. -/
inductive UpstreamOutcome where
  | text (s : String)
  | reject (e : ErrFlags)
deriving Repr

/-- One inbound request together with the environment the handler
observes.  `upstreamElapsedMs` is the wall-clock duration of the awaited
upstream call; the handler contains no `AbortController`, timer or
`Promise.race`, so nothing in it can observe this duration. -/
structure PostInput where
  now : Nat
  xForwardedFor : Option String
  xRealIP : Option String
  body : BodyOutcome
  apiKeyConfigured : Bool
  upstream : UpstreamOutcome
  upstreamElapsedMs : Nat

/-- What the handler produces: the HTTP status, the rate-limiter map
after the request, whether the upstream provider was invoked, and the
parsed value echoed in a 200 response (the body is its
`JSON.stringify`). -/
structure PostResult where
  status : Nat
  state : RateLimiterState
  upstreamCalled : Bool
  payload : Option JVal

/-- The tail of the handler once the upstream call is reached: await the
provider, run the two-attempt parse on its text, then the
response-structure validation; on success answer 200 echoing the parsed
value.  Errors propagate to the catch block (`catchStatus`). -/
def upstreamPhase (u : UpstreamOutcome) (st1 : RateLimiterState) : PostResult :=
  match u with
  | UpstreamOutcome.reject e => ⟨catchStatus e, st1, true, none⟩
  | UpstreamOutcome.text s =>
    match parseUpstreamPlain s with
    | none => ⟨catchStatus malformedResponseFlags, st1, true, none⟩
    | some v =>
      if validateParsed v = false then
        ⟨catchStatus invalidStructureFlags, st1, true, none⟩
      else
        ⟨200, st1, true, some v⟩

/-- The `POST` handler of the later revision: rate-limit check first,
then body read and destructure, then the `!code || !personality`,
`code.length > 3000` and `typeof` validations (in that order), then the
`GEMINI_API_KEY` check, then the upstream call (`upstreamPhase`).
Every error propagates to the single catch block, whose status mapping
is `catchStatus`. -/
def POST (inp : PostInput) (st : RateLimiterState) : PostResult :=
  let ip := getRealIP inp.xForwardedFor inp.xRealIP
  let rc := checkRateLimit inp.now ip st
  let rateCheck := rc.1
  let st1 := rc.2
  if rateCheck.allowed = false then
    ⟨429, st1, false, none⟩
  else
    match inp.body with
    | BodyOutcome.parseError e => ⟨catchStatus e, st1, false, none⟩
    | BodyOutcome.destructureError => ⟨catchStatus destructureErrFlags, st1, false, none⟩
    | BodyOutcome.fields code personality =>
      if code.truthy = false || personality.truthy = false then
        ⟨400, st1, false, none⟩
      else if code.lengthGT3000 then
        ⟨400, st1, false, none⟩
      else if code.isStringTy = false || personality.isStringTy = false then
        ⟨400, st1, false, none⟩
      else if inp.apiKeyConfigured = false then
        ⟨500, st1, false, none⟩
      else
        upstreamPhase inp.upstream st1

/-- The five keys of the `personalityPrompts` lookup table (both
revisions); `POST` never consults this set while validating. -/
def personalityKeys : List String :=
  ["mentor", "minimalist", "intern", "security", "performance"]

/- ------------------------------------------------------------------
   Client-side submit (src/unnamed/part_000, handleSubmit)
   ------------------------------------------------------------------ -/

/-- `setTimeout(() => controller.abort(), 60000)` in `handleSubmit`. -/
def CLIENT_TIMEOUT_MS : Nat := 60000

/-- The string `handleSubmit` renders on an `AbortError`
(`"// Error: " + the AbortError message`). -/
def clientTimeoutDisplay : String :=
  "// Error: Request timed out after 60 seconds. Please try again with a shorter code snippet."

/-- What `handleSubmit` leaves in `result`: the fetch is aborted by the
60-second timer when the response takes longer (the tie at exactly
60000 ms depends on timer scheduling and is not modelled; only the
strict case is used), in which case the fixed timeout message is shown
and no retry happens; otherwise the outcome of processing the completed
response, abstracted by `completed`. -/
def handleSubmitView (fetchMs : Nat) (completed : String) : String :=
  if CLIENT_TIMEOUT_MS < fetchMs then clientTimeoutDisplay else completed

/- ------------------------------------------------------------------
   Concrete inputs used by counterexamples and witnesses
   ------------------------------------------------------------------ -/

/-- An upstream reply that parses directly and passes validation. -/
def goodUpstreamText : String := "\x7b\"language\": \"js\", \"commentedCode\": \"ok\"\x7d"

/-- A request with an unknown personality `"pirate"` and otherwise valid
fields, against an empty rate-limiter map. -/
def pirateInput : PostInput :=
  ⟨0, none, none, BodyOutcome.fields (JSField.vStr "x") (JSField.vStr "pirate"),
    true, UpstreamOutcome.text goodUpstreamText, 0⟩

/-- A request whose body is not well-formed JSON (e.g. the text `hello`):
`request.json()` rejects with
`SyntaxError: Unexpected token 'h', "hello" is not valid JSON`, whose
message contains `JSON` and none of the other tested substrings. -/
def badBodyInput : PostInput :=
  ⟨0, none, none, BodyOutcome.parseError ⟨false, false, false, false, true, false⟩,
    true, UpstreamOutcome.text goodUpstreamText, 0⟩

/-- A request whose upstream reply is a valid object with a non-empty
`commentedCode` but no `language` member at all. -/
def noLanguageInput : PostInput :=
  ⟨0, none, none, BodyOutcome.fields (JSField.vStr "x") (JSField.vStr "mentor"),
    true, UpstreamOutcome.text "\x7b\"commentedCode\": \"x\"\x7d", 0⟩

/-- A valid request whose upstream call takes 61 seconds before
resolving successfully. -/
def slowUpstreamInput : PostInput :=
  ⟨0, none, none, BodyOutcome.fields (JSField.vStr "x") (JSField.vStr "mentor"),
    true, UpstreamOutcome.text goodUpstreamText, 61000⟩

/-- Upstream reply that is the expected two-key object except for one
raw (unescaped) newline inside the `commentedCode` string value. -/
def rawNewlineReply : String :=
  "\x7b\"language\": \"js\", \"commentedCode\": \"x=1\ny=2\"\x7d"

/-- Upstream reply that is the expected two-key object except for one
raw newline inside `commentedCode`, whose value also contains (properly
escaped) quotes. -/
def rawNewlineEscQuoteReply : String :=
  "\x7b\"language\": \"js\", \"commentedCode\": \"say \\\"hi\\\"\ndone\"\x7d"

/-- Raw text with prose around a well-formed object whose
`commentedCode` contains the two-character escape `\n`. -/
def prosePaddedReply : String :=
  "pre \x7b\"language\":\"js\",\"commentedCode\":\"a\\nb\"\x7d post"

/-- The `commentedCode` member of a parse result, when it is a string. -/
def getCommentedCode (o : Option JVal) : Option String :=
  match o with
  | some v =>
    match jsPropOf v "commentedCode" with
    | some (JVal.jstr s) => some s
    | _ => none
  | none => none

/-- A 3001-character code snippet. -/
def longCode : String := String.mk (List.replicate 3001 'a')

/-- A request whose `code` has length 3001 and is otherwise valid. -/
def longCodeInput : PostInput :=
  ⟨0, none, none, BodyOutcome.fields (JSField.vStr longCode) (JSField.vStr "mentor"),
    true, UpstreamOutcome.text goodUpstreamText, 0⟩

/-- A request whose body parsed but carries no `code` property. -/
def missingCodeInput : PostInput :=
  ⟨0, none, none, BodyOutcome.fields (JSField.vOther false none) (JSField.vStr "mentor"),
    true, UpstreamOutcome.text goodUpstreamText, 0⟩

/-- The handler state in which the upstream call is reached: rate check
allowed, body destructured into two truthy strings, `code` not over
3000 characters, and the API key configured, with the given upstream
reply text. -/
def reachesUpstreamText (inp : PostInput) (st : RateLimiterState) (s : String) : Prop :=
  (checkRateLimit inp.now (getRealIP inp.xForwardedFor inp.xRealIP) st).1.allowed = true ∧
  (∃ code pers, inp.body = BodyOutcome.fields code pers ∧
    code.truthy = true ∧ pers.truthy = true ∧ code.lengthGT3000 = false ∧
    code.isStringTy = true ∧ pers.isStringTy = true) ∧
  inp.apiKeyConfigured = true ∧
  inp.upstream = UpstreamOutcome.text s

/- ==================================================================
   Theorems
   ================================================================== -/

theorem mapGet_mapSet_self (st : RateLimiterState) (k : String) (w : RateWindow) :
    mapGet (mapSet st k w) k = some w := by
  simp [mapGet, mapSet]

theorem checkRateLimit_fresh (now : Nat) (ip : String) (st : RateLimiterState)
    (h : ∀ w, mapGet st ip = some w → now > w.resetTime) :
    checkRateLimit now ip st =
      (⟨true, (RATE_LIMIT : Int) - 1, now + WINDOW_MS⟩, mapSet st ip ⟨1, now + WINDOW_MS⟩) := by
  unfold checkRateLimit
  cases hm : mapGet st ip with
  | none => rfl
  | some w => simp [h w hm]

theorem checkRateLimit_incr (now : Nat) (ip : String) (st : RateLimiterState)
    (c R : Nat) (hm : mapGet st ip = some ⟨c, R⟩)
    (hle : ¬ now > R) (hc : c < RATE_LIMIT) :
    checkRateLimit now ip st =
      (⟨true, (RATE_LIMIT : Int) - ((c : Int) + 1), R⟩, mapSet st ip ⟨c + 1, R⟩) := by
  simp [checkRateLimit, hm, hle, Nat.not_le_of_lt hc]

theorem checkRateLimit_block (now : Nat) (ip : String) (st : RateLimiterState)
    (c R : Nat) (hm : mapGet st ip = some ⟨c, R⟩)
    (hle : ¬ now > R) (hc : RATE_LIMIT ≤ c) :
    checkRateLimit now ip st = (⟨false, 0, R⟩, st) := by
  simp [checkRateLimit, hm, hle, hc]

theorem checkSeq_live (ip : String) (R : Nat) :
    ∀ (ts : List Nat) (c : Nat) (st : RateLimiterState),
      mapGet st ip = some ⟨c, R⟩ → (∀ t ∈ ts, t ≤ R) → c + ts.length ≤ RATE_LIMIT →
      (∀ r ∈ (checkSeq ts ip st).1, r.allowed = true) ∧
      mapGet (checkSeq ts ip st).2 ip = some ⟨c + ts.length, R⟩ := by
  intro ts
  induction ts with
  | nil =>
    intro c st hm _ _
    exact ⟨by simp [checkSeq], by simpa [checkSeq] using hm⟩
  | cons t ts ih =>
    intro c st hm hts hcnt
    have ht : t ≤ R := hts t (by simp)
    have hc : c < RATE_LIMIT := by simp at hcnt; omega
    have hstep := checkRateLimit_incr t ip st c R hm (by omega) hc
    have hnext : mapGet (checkRateLimit t ip st).2 ip = some ⟨c + 1, R⟩ := by
      rw [hstep]; exact mapGet_mapSet_self st ip ⟨c + 1, R⟩
    obtain ⟨hall, hfin⟩ := ih (c + 1) (checkRateLimit t ip st).2 hnext
      (fun u hu => hts u (by simp [hu])) (by simp at hcnt ⊢; omega)
    refine ⟨?_, ?_⟩
    · intro r hr
      simp only [checkSeq, List.mem_cons] at hr
      rcases hr with hr | hr
      · rw [hr, hstep]
      · exact hall r hr
    · simp only [checkSeq, List.length_cons]
      have harith : c + 1 + ts.length = c + (ts.length + 1) := by omega
      rw [← harith]
      exact hfin

/-- C1: for a client with no window (or an expired one) at time `t0`,
the first call and the nine further calls within the 15-minute window
are all allowed (the first returning remaining = LIMIT − 1), the 11th
call within the window is refused with remaining 0 and the reset time
unchanged, and a call after the reset time has elapsed opens a fresh
window with count 1, allowed, remaining = LIMIT − 1. -/
theorem c1_rate_limit_cycle
    (st : RateLimiterState) (ip : String) (t0 t11 t12 : Nat) (ts : List Nat)
    (hfresh : ∀ w, mapGet st ip = some w → t0 > w.resetTime)
    (hlen : ts.length = 9)
    (hts : ∀ t ∈ ts, t ≤ t0 + WINDOW_MS)
    (h11 : t11 ≤ t0 + WINDOW_MS)
    (h12 : t12 > t0 + WINDOW_MS) :
    (checkRateLimit t0 ip st).1 = ⟨true, (RATE_LIMIT : Int) - 1, t0 + WINDOW_MS⟩ ∧
    (∀ r ∈ (checkSeq ts ip (checkRateLimit t0 ip st).2).1, r.allowed = true) ∧
    checkRateLimit t11 ip (checkSeq ts ip (checkRateLimit t0 ip st).2).2 =
      (⟨false, 0, t0 + WINDOW_MS⟩, (checkSeq ts ip (checkRateLimit t0 ip st).2).2) ∧
    (checkRateLimit t12 ip
        (checkRateLimit t11 ip (checkSeq ts ip (checkRateLimit t0 ip st).2).2).2).1 =
      ⟨true, (RATE_LIMIT : Int) - 1, t12 + WINDOW_MS⟩ ∧
    mapGet (checkRateLimit t12 ip
        (checkRateLimit t11 ip (checkSeq ts ip (checkRateLimit t0 ip st).2).2).2).2 ip =
      some ⟨1, t12 + WINDOW_MS⟩ := by
  have h1 := checkRateLimit_fresh t0 ip st hfresh
  have hm1 : mapGet (checkRateLimit t0 ip st).2 ip = some ⟨1, t0 + WINDOW_MS⟩ := by
    rw [h1]; exact mapGet_mapSet_self st ip ⟨1, t0 + WINDOW_MS⟩
  obtain ⟨hall, hfin⟩ := checkSeq_live ip (t0 + WINDOW_MS) ts 1 (checkRateLimit t0 ip st).2
    hm1 hts (by rw [hlen]; norm_num [RATE_LIMIT])
  have hfin10 : mapGet (checkSeq ts ip (checkRateLimit t0 ip st).2).2 ip =
      some ⟨10, t0 + WINDOW_MS⟩ := by
    rw [hfin, hlen]
  have h11b := checkRateLimit_block t11 ip (checkSeq ts ip (checkRateLimit t0 ip st).2).2
    10 (t0 + WINDOW_MS) hfin10 (by omega) (by norm_num [RATE_LIMIT])
  have hm11 : mapGet (checkRateLimit t11 ip (checkSeq ts ip (checkRateLimit t0 ip st).2).2).2 ip =
      some ⟨10, t0 + WINDOW_MS⟩ := by
    rw [h11b]; exact hfin10
  have h12f := checkRateLimit_fresh t12 ip
    (checkRateLimit t11 ip (checkSeq ts ip (checkRateLimit t0 ip st).2).2).2
    (by intro w hw; rw [hm11] at hw; cases hw; simpa using h12)
  refine ⟨by rw [h1], hall, h11b, by rw [h12f], ?_⟩
  rw [h12f]
  exact mapGet_mapSet_self _ ip ⟨1, t12 + WINDOW_MS⟩

theorem c1_rate_limit_cycle_witness :
    checkRateLimit 0 "a"
        (checkSeq [0, 0, 0, 0, 0, 0, 0, 0, 0] "a" (checkRateLimit 0 "a" []).2).2 =
      (⟨false, 0, 0 + WINDOW_MS⟩,
        (checkSeq [0, 0, 0, 0, 0, 0, 0, 0, 0] "a" (checkRateLimit 0 "a" []).2).2) :=
  (c1_rate_limit_cycle [] "a" 0 0 (WINDOW_MS + 1) [0, 0, 0, 0, 0, 0, 0, 0, 0]
    (by intro w hw; simp [mapGet] at hw) rfl (by decide) (by decide) (by decide)).2.2.1

theorem count_bound_preserved (now : Nat) (ip : String) (st : RateLimiterState)
    (h : ∀ e ∈ st, e.2.count ≤ RATE_LIMIT + 1) :
    ∀ e ∈ (checkRateLimit now ip st).2, e.2.count ≤ RATE_LIMIT + 1 := by
  intro e he
  unfold checkRateLimit at he
  cases hm : mapGet st ip with
  | none =>
    rw [hm] at he
    simp only [mapSet, List.mem_cons] at he
    rcases he with he | he
    · rw [he]; norm_num [RATE_LIMIT]
    · exact h e (List.mem_of_mem_filter he)
  | some w =>
    rw [hm] at he
    by_cases hex : now > w.resetTime
    · simp only [if_pos hex, mapSet, List.mem_cons] at he
      rcases he with he | he
      · rw [he]; norm_num [RATE_LIMIT]
      · exact h e (List.mem_of_mem_filter he)
    · by_cases hfull : w.count ≥ RATE_LIMIT
      · simp only [if_neg hex, if_pos hfull] at he
        exact h e he
      · simp only [if_neg hex, if_neg hfull, mapSet, List.mem_cons] at he
        rcases he with he | he
        · rw [he]; simp; omega
        · exact h e (List.mem_of_mem_filter he)

theorem runChecks_count_bound (calls : List (Nat × String)) :
    ∀ st : RateLimiterState, (∀ e ∈ st, e.2.count ≤ RATE_LIMIT + 1) →
    ∀ e ∈ runChecks calls st, e.2.count ≤ RATE_LIMIT + 1 := by
  induction calls with
  | nil => intro st h e he; exact h e he
  | cons call rest ih =>
    intro st h e he
    exact ih (checkRateLimit call.1 call.2 st).2
      (count_bound_preserved call.1 call.2 st h) e (by simpa [runChecks] using he)

/-- C7: over any sequence of rate-limit checks starting from the empty
map, no stored window's count ever exceeds the limit plus one; and
whenever a client's window is replaced by a fresh one (an existing
window observed past its reset time), the fresh window's reset time is
strictly greater than the old one's. -/
theorem c7_window_invariants :
    (∀ calls : List (Nat × String), ∀ e ∈ runChecks calls ([] : RateLimiterState),
      e.2.count ≤ RATE_LIMIT + 1) ∧
    (∀ (st : RateLimiterState) (now : Nat) (ip : String) (w : RateWindow),
      mapGet st ip = some w → now > w.resetTime →
      mapGet (checkRateLimit now ip st).2 ip = some ⟨1, now + WINDOW_MS⟩ ∧
      w.resetTime < now + WINDOW_MS) := by
  constructor
  · intro calls e he
    exact runChecks_count_bound calls [] (by intro e2 he2; cases he2) e he
  · intro st now ip w hm hex
    have hfr := checkRateLimit_fresh now ip st
      (by intro w2 hw2; rw [hm] at hw2; cases hw2; exact hex)
    constructor
    · rw [hfr]; exact mapGet_mapSet_self st ip ⟨1, now + WINDOW_MS⟩
    · have hW : WINDOW_MS = 900000 := rfl
      omega

theorem c7_window_invariants_witness :
    (("a", (⟨1, 0 + WINDOW_MS⟩ : RateWindow)).2.count ≤ RATE_LIMIT + 1) ∧
    (mapGet (checkRateLimit 8 "a" [("a", ⟨3, 7⟩)]).2 "a" = some ⟨1, 8 + WINDOW_MS⟩ ∧
      (⟨3, 7⟩ : RateWindow).resetTime < 8 + WINDOW_MS) :=
  ⟨c7_window_invariants.1 [(0, "a")] ("a", ⟨1, 0 + WINDOW_MS⟩) (by
      simp [runChecks, checkRateLimit, mapGet, mapSet]),
    c7_window_invariants.2 [("a", ⟨3, 7⟩)] 8 "a" ⟨3, 7⟩ (by simp [mapGet]) (by decide)⟩

theorem upstreamPhase_state (u : UpstreamOutcome) (st1 : RateLimiterState) :
    (upstreamPhase u st1).state = st1 := by
  unfold upstreamPhase
  repeat' split
  all_goals rfl

theorem upstreamPhase_called (u : UpstreamOutcome) (st1 : RateLimiterState) :
    (upstreamPhase u st1).upstreamCalled = true := by
  unfold upstreamPhase
  repeat' split
  all_goals rfl

theorem catchStatus_cases (e : ErrFlags) :
    catchStatus e = 429 ∨ catchStatus e = 503 ∨ catchStatus e = 502 ∨ catchStatus e = 500 := by
  unfold catchStatus
  repeat' split
  all_goals simp

theorem catchStatus_ne_400 (e : ErrFlags) : catchStatus e ≠ 400 := by
  intro hc
  rcases catchStatus_cases e with h | h | h | h <;> omega

theorem upstreamPhase_status_ne_400 (u : UpstreamOutcome) (st1 : RateLimiterState) :
    (upstreamPhase u st1).status ≠ 400 := by
  unfold upstreamPhase
  repeat' split
  all_goals dsimp only
  all_goals first | exact catchStatus_ne_400 _ | decide

theorem post_state_is_rate_state (inp : PostInput) (st : RateLimiterState) :
    (POST inp st).state =
      (checkRateLimit inp.now (getRealIP inp.xForwardedFor inp.xRealIP) st).2 := by
  unfold POST
  dsimp only
  repeat' split
  all_goals first | rfl | apply upstreamPhase_state

/-- C10: whenever the client's window is below the limit (absent,
expired, or count < LIMIT), the `POST` handler's final rate-limiter map
is exactly the post-check map — the slot is consumed by the initial
`checkRateLimit` call and never rolled back, whatever the body,
API-key or upstream outcome — and the stored count is the previous live
count plus one. -/
theorem c10_slot_consumed_first (inp : PostInput) (st : RateLimiterState)
    (hnot : liveCount st (getRealIP inp.xForwardedFor inp.xRealIP) inp.now < RATE_LIMIT) :
    (POST inp st).state =
      (checkRateLimit inp.now (getRealIP inp.xForwardedFor inp.xRealIP) st).2 ∧
    mapGet (POST inp st).state (getRealIP inp.xForwardedFor inp.xRealIP) =
      some ⟨liveCount st (getRealIP inp.xForwardedFor inp.xRealIP) inp.now + 1,
        (checkRateLimit inp.now (getRealIP inp.xForwardedFor inp.xRealIP) st).1.resetTime⟩ := by
  refine ⟨post_state_is_rate_state inp st, ?_⟩
  rw [post_state_is_rate_state inp st]
  set ip := getRealIP inp.xForwardedFor inp.xRealIP with hip
  cases hm : mapGet st ip with
  | none =>
    rw [checkRateLimit_fresh inp.now ip st (by intro w hw; rw [hm] at hw; cases hw)]
    simp [liveCount, hm, mapGet_mapSet_self]
  | some w =>
    by_cases hex : inp.now > w.resetTime
    · rw [checkRateLimit_fresh inp.now ip st
        (by intro w2 hw2; rw [hm] at hw2; cases hw2; exact hex)]
      simp [liveCount, hm, hex, mapGet_mapSet_self]
    · have hcnt : w.count < RATE_LIMIT := by simpa [liveCount, hm, hex] using hnot
      rw [checkRateLimit_incr inp.now ip st w.count w.resetTime (by rw [hm]) hex hcnt]
      simp [liveCount, hm, hex, mapGet_mapSet_self]

theorem c10_slot_consumed_first_witness :
    (POST badBodyInput []).state = (checkRateLimit 0 "unknown" []).2 ∧
    mapGet (POST badBodyInput []).state "unknown" = some ⟨1, 0 + WINDOW_MS⟩ :=
  c10_slot_consumed_first badBodyInput [] (by decide)

theorem post_reaches_upstream (inp : PostInput) (st : RateLimiterState)
    (code pers : JSField)
    (hb : inp.body = BodyOutcome.fields code pers)
    (hct : code.truthy = true) (hpt : pers.truthy = true)
    (hlg : code.lengthGT3000 = false)
    (hcs : code.isStringTy = true) (hps : pers.isStringTy = true)
    (hkey : inp.apiKeyConfigured = true)
    (hallowed :
      (checkRateLimit inp.now (getRealIP inp.xForwardedFor inp.xRealIP) st).1.allowed = true) :
    POST inp st = upstreamPhase inp.upstream
      (checkRateLimit inp.now (getRealIP inp.xForwardedFor inp.xRealIP) st).2 := by
  unfold POST
  dsimp only
  rw [hb]
  simp [hallowed, hct, hpt, hlg, hcs, hps, hkey]

/-- C9: a request whose `code` has `.length > 3000` (in particular length
3001) is answered 400 without the upstream provider ever being invoked,
whenever the rate check lets the request through. -/
theorem c9_long_code_rejected (inp : PostInput) (st : RateLimiterState)
    (code pers : JSField)
    (hb : inp.body = BodyOutcome.fields code pers)
    (hlen : code.lengthGT3000 = true)
    (hallowed :
      (checkRateLimit inp.now (getRealIP inp.xForwardedFor inp.xRealIP) st).1.allowed = true) :
    (POST inp st).status = 400 ∧ (POST inp st).upstreamCalled = false := by
  unfold POST
  dsimp only
  rw [hb]
  cases hct : code.truthy <;> cases hpt : pers.truthy <;> simp [hallowed, hlen]

theorem c9_long_code_rejected_witness :
    (POST longCodeInput []).status = 400 ∧ (POST longCodeInput []).upstreamCalled = false :=
  c9_long_code_rejected longCodeInput [] (JSField.vStr longCode) (JSField.vStr "mentor")
    rfl
    (by
      have h : longCode.length = 3001 := by
        show (List.replicate 3001 'a').length = 3001
        exact List.length_replicate 3001 'a'
      simp [JSField.lengthGT3000, h])
    (by decide)

/-- C3 counterexample: the value `"pirate"` is not one of the five
personality keys, yet the request is not rejected with 400 — the
handler invokes the upstream provider and answers 200. -/
theorem c3_counterexample :
    "pirate" ∉ personalityKeys ∧
    (POST pirateInput []).status = 200 ∧ (POST pirateInput []).upstreamCalled = true :=
  ⟨by decide, by decide, by decide⟩

/-- C3 amended: an unknown personality value is never rejected — the
validations check only presence, string type and code length, so any
request carrying a non-empty string personality outside the five known
keys (with an otherwise valid code, a configured key and an allowing
rate check) proceeds to the upstream call and cannot produce a 400. -/
theorem c3_unknown_personality_not_rejected (inp : PostInput) (st : RateLimiterState)
    (code pers : String)
    (hb : inp.body = BodyOutcome.fields (JSField.vStr code) (JSField.vStr pers))
    (hcode : code ≠ "") (hpers : pers ≠ "")
    (hlen : code.length ≤ 3000)
    (_hunknown : pers ∉ personalityKeys)
    (hkey : inp.apiKeyConfigured = true)
    (hallowed :
      (checkRateLimit inp.now (getRealIP inp.xForwardedFor inp.xRealIP) st).1.allowed = true) :
    (POST inp st).upstreamCalled = true ∧ (POST inp st).status ≠ 400 := by
  have hre := post_reaches_upstream inp st (JSField.vStr code) (JSField.vStr pers) hb
    (by simp [JSField.truthy, hcode]) (by simp [JSField.truthy, hpers])
    (by simp only [JSField.lengthGT3000]; simp; omega)
    rfl rfl hkey hallowed
  rw [hre]
  exact ⟨upstreamPhase_called _ _, upstreamPhase_status_ne_400 _ _⟩

theorem c3_unknown_personality_not_rejected_witness :
    (POST pirateInput []).upstreamCalled = true ∧ (POST pirateInput []).status ≠ 400 :=
  c3_unknown_personality_not_rejected pirateInput [] "x" "pirate" rfl
    (by decide) (by decide) (by decide) (by decide) rfl (by decide)

/-- C8 counterexample: a request whose body is not well-formed JSON is
answered with status 502 — a 5xx, not a 400 (the `SyntaxError` from
`request.json()` mentions `JSON`, so the catch block classifies it as a
malformed *upstream* response). -/
theorem c8_counterexample :
    (POST badBodyInput []).status = 502 ∧ 500 ≤ (POST badBodyInput []).status :=
  ⟨by decide, by decide⟩

/-- C8 amended: field-level problems in a body that did parse — missing
or falsy `code`/`personality`, `code.length > 3000`, or a non-string
`code`/`personality` — are answered 400 (when the rate check allows);
only a body that fails JSON parsing (or destructures `null`) reaches
the generic catch block and yields a 5xx. -/
theorem c8_field_errors_400 (inp : PostInput) (st : RateLimiterState)
    (code pers : JSField)
    (hb : inp.body = BodyOutcome.fields code pers)
    (hallowed :
      (checkRateLimit inp.now (getRealIP inp.xForwardedFor inp.xRealIP) st).1.allowed = true)
    (hbad : code.truthy = false ∨ pers.truthy = false ∨ code.lengthGT3000 = true ∨
      code.isStringTy = false ∨ pers.isStringTy = false) :
    (POST inp st).status = 400 := by
  unfold POST
  dsimp only
  rw [hb]
  cases hct : code.truthy <;> cases hpt : pers.truthy <;>
    cases hlg : code.lengthGT3000 <;> cases hcs : code.isStringTy <;>
      cases hps : pers.isStringTy <;> simp_all [hallowed]

theorem c8_field_errors_400_witness :
    (POST missingCodeInput []).status = 400 :=
  c8_field_errors_400 missingCodeInput [] (JSField.vOther false none) (JSField.vStr "mentor")
    rfl (by decide) (Or.inl rfl)

/-- C4 counterexample: an upstream reply that is a valid object with a
non-empty `commentedCode` but no `language` member at all is answered
200 with the parsed object echoed unchanged — the 200 body carries no
string `language`; nothing defaults it to `"plaintext"`. -/
theorem c4_counterexample :
    (POST noLanguageInput []).status = 200 ∧
    payloadHasStringLanguage (POST noLanguageInput []).payload = false :=
  ⟨by decide, by decide⟩

/-- C4 amended: once the upstream reply parses to `v`, the request
succeeds exactly when `v` is a truthy object with a truthy
`commentedCode` (so an absent or empty `commentedCode` is rejected),
and a 200 response echoes `v` unchanged — in particular `language` is
passed through as supplied, never defaulted. -/
theorem c4_passthrough_no_language_default (inp : PostInput) (st : RateLimiterState)
    (s : String) (v : JVal)
    (hr : reachesUpstreamText inp st s)
    (hp : parseUpstreamPlain s = some v) :
    ((POST inp st).status = 200 ↔ validateParsed v = true) ∧
    ((POST inp st).status = 200 → (POST inp st).payload = some v) ∧
    (jsTruthyOpt (jsPropOf v "commentedCode") = false → (POST inp st).status ≠ 200) := by
  obtain ⟨hallowed, ⟨code, pers, hb, hct, hpt, hlg, hcs, hps⟩, hkey, hu⟩ := hr
  have hre := post_reaches_upstream inp st code pers hb hct hpt hlg hcs hps hkey hallowed
  rw [hre, hu]
  unfold upstreamPhase
  dsimp only
  rw [hp]
  by_cases hv : validateParsed v = true
  · refine ⟨by simp [hv], ?_, ?_⟩
    · intro _
      simp [hv]
    · intro hfalse
      simp [validateParsed, hfalse] at hv
  · have hvf : validateParsed v = false := by
      revert hv; cases validateParsed v <;> simp
    simp [hvf, catchStatus, invalidStructureFlags]

theorem c4_passthrough_no_language_default_witness :
    ((POST pirateInput []).status = 200 ↔
      validateParsed (JVal.jobj [("language", JVal.jstr "js"),
        ("commentedCode", JVal.jstr "ok")]) = true) ∧
    ((POST pirateInput []).status = 200 → (POST pirateInput []).payload =
      some (JVal.jobj [("language", JVal.jstr "js"), ("commentedCode", JVal.jstr "ok")])) ∧
    (jsTruthyOpt (jsPropOf (JVal.jobj [("language", JVal.jstr "js"),
        ("commentedCode", JVal.jstr "ok")]) "commentedCode") = false →
      (POST pirateInput []).status ≠ 200) :=
  c4_passthrough_no_language_default pirateInput [] goodUpstreamText
    (JVal.jobj [("language", JVal.jstr "js"), ("commentedCode", JVal.jstr "ok")])
    ⟨by decide, ⟨JSField.vStr "x", JSField.vStr "pirate", rfl, by decide, by decide,
      by decide, rfl, rfl⟩, rfl, rfl⟩
    (by rfl)

/-- C2 counterexample: parsing does not proceed in the three ordered
attempts the specification describes.  On `prosePaddedReply` the
raw-substring attempt (the spec's second) would succeed with a
`commentedCode` of `a`, newline, `b`, but the sanitizing revision
instead repairs unconditionally and yields `a`, backslash, `n`, `b`;
and on `rawNewlineReply` the spec's third (repair) attempt would
succeed while the rate-limited revision has no repair attempt and
fails. -/
theorem c2_counterexample :
    getCommentedCode (parseUpstreamSanitizing prosePaddedReply) ≠
      getCommentedCode (specThreeAttempt prosePaddedReply) ∧
    parseUpstreamPlain rawNewlineReply = none ∧
    (specThreeAttempt rawNewlineReply).isSome = true :=
  ⟨by decide, by rfl, by rfl⟩

/-- C2 amended: each revision's parsing runs exactly two ordered
attempts — (1) `JSON.parse` on the whole text and, if that fails,
(2) one parse of the brace-delimited substring, to which the earlier
revision first applies the repair unconditionally while the later
revision uses it raw — the first success is used, and the request
fails as malformed exactly when the whole-text parse fails and the
fallback (missing braces, or the second parse failing) does too. -/
theorem c2_two_attempt_structure (s : String) :
    (∀ v, jparse s = some v →
      parseUpstreamSanitizing s = some v ∧ parseUpstreamPlain s = some v) ∧
    (jparse s = none → ∀ sub, extractBraces s.data = some sub →
      parseUpstreamSanitizing s = jparse (sanitizeJsonString (String.mk sub)) ∧
      parseUpstreamPlain s = jparse (String.mk sub)) ∧
    (jparse s = none → extractBraces s.data = none →
      parseUpstreamSanitizing s = none ∧ parseUpstreamPlain s = none) := by
  refine ⟨?_, ?_, ?_⟩
  · intro v hv
    constructor <;> simp [parseUpstreamSanitizing, parseUpstreamPlain, hv]
  · intro hn sub hsub
    constructor <;> simp [parseUpstreamSanitizing, parseUpstreamPlain, hn, hsub]
  · intro hn hsub
    constructor <;> simp [parseUpstreamSanitizing, parseUpstreamPlain, hn, hsub]

theorem c2_two_attempt_structure_witness :
    parseUpstreamSanitizing "x \x7b\x7d" = jparse (sanitizeJsonString "\x7b\x7d") ∧
    parseUpstreamPlain "x \x7b\x7d" = jparse "\x7b\x7d" :=
  (c2_two_attempt_structure "x \x7b\x7d").2.1 rfl "\x7b\x7d".data rfl

/-- C5: the repair pass recovers the representative raw-newline reply
(the sanitizing pipeline succeeds on `rawNewlineReply` with the newline
re-escaped), but on the equally in-scope `rawNewlineEscQuoteReply` —
the expected two-key object whose `commentedCode` holds escaped quotes
plus one raw newline — the repair produces an unparseable string and
the request fails as malformed: the char class `[^"]` of the repair
regex also eats backslashes, so the match stops at the first `"` even
when escaped, truncating the captured value. -/
theorem c5_repair_fails_on_escaped_quotes :
    parseUpstreamSanitizing rawNewlineReply =
      some (JVal.jobj [("language", JVal.jstr "js"),
        ("commentedCode", JVal.jstr "x=1\ny=2")]) ∧
    parseUpstreamSanitizing rawNewlineEscQuoteReply = none :=
  ⟨by rfl, by rfl⟩

/-- C6 counterexample: a request whose upstream call takes 61 seconds —
past the claimed 60-second bound — is neither aborted nor failed with
an upstream error: the gateway waits, uses the completed reply and
answers 200. -/
theorem c6_counterexample :
    CLIENT_TIMEOUT_MS < slowUpstreamInput.upstreamElapsedMs ∧
    (POST slowUpstreamInput []).status = 200 ∧
    (POST slowUpstreamInput []).upstreamCalled = true :=
  ⟨by decide, by decide, by decide⟩

/-- C6 amended: the gateway itself imposes no timeout — its behaviour
is invariant under the upstream call's wall-clock duration — and the
only 60-second abort lives in the browser client, whose `handleSubmit`
cancels its fetch after 60 s and displays a fixed timeout message (one
fetch, no retry). -/
theorem c6_no_gateway_timeout (inp : PostInput) (st : RateLimiterState)
    (d1 d2 : Nat) (completed : String) :
    POST ⟨inp.now, inp.xForwardedFor, inp.xRealIP, inp.body,
        inp.apiKeyConfigured, inp.upstream, d1⟩ st =
      POST ⟨inp.now, inp.xForwardedFor, inp.xRealIP, inp.body,
        inp.apiKeyConfigured, inp.upstream, d2⟩ st ∧
    (CLIENT_TIMEOUT_MS < d1 → handleSubmitView d1 completed = clientTimeoutDisplay) := by
  constructor
  · rfl
  · intro h
    simp [handleSubmitView, h]

theorem c6_no_gateway_timeout_witness :
    POST ⟨0, none, none, BodyOutcome.fields (JSField.vStr "x") (JSField.vStr "mentor"),
        true, UpstreamOutcome.text goodUpstreamText, 61000⟩ [] =
      POST ⟨0, none, none, BodyOutcome.fields (JSField.vStr "x") (JSField.vStr "mentor"),
        true, UpstreamOutcome.text goodUpstreamText, 0⟩ [] ∧
    handleSubmitView 61000 "done" = clientTimeoutDisplay :=
  ⟨(c6_no_gateway_timeout slowUpstreamInput [] 61000 0 "done").1,
    (c6_no_gateway_timeout slowUpstreamInput [] 61000 0 "done").2 (by decide)⟩
